import Mathlib

/-!
Verification development for the OpenConstructionEstimate repository.

The file shallowly embeds the parts of the TypeScript source that the
checked properties talk about:

* the server-side Parquet query pipeline (`safeString`, `safeNumber`,
  `queryWorkItems` with its search / category / price filters, its stable
  sort and its pagination);
* the natural-language filter compiler of `SmartFilter`
  (`resolveField`, `detectOperator`, `detectUnit`, `extractValue`,
  `parseNaturalLanguageQuery`);
* the table state store (`toggleColumn`, `partialize`);
* the work-item mapper (`mapToConstructionItem`, `createConstructionItem`);
* the virtualization padding of `DataTable` (the window computation itself
  lives in the external TanStack Virtual library and is modelled from the
  specification).

JavaScript numbers are modelled as `Rat`, JavaScript strings as `String`,
nullable dynamic values as the inductive `JSVal` (`undefined` and `null`
are conflated: every embedded operation treats them identically).
-/

/- ===================== JS string primitives ===================== -/

/-- Model of JS `String.prototype.includes`: `needle` occurs as a
contiguous substring of the character list `hay`. -/
def hasSub (needle : List Char) : List Char → Bool
  | [] => needle.isEmpty
  | c :: rest => needle.isPrefixOf (c :: rest) || hasSub needle rest

/-- Model of JS `hay.includes(needle)` on strings. -/
def jsIncludes (hay needle : String) : Bool :=
  hasSub needle.data hay.data

/-- Model of JS `toLowerCase` (ASCII case folding; the embedded literals
and inputs only use ASCII letters and caseless symbols). -/
def jsToLower (s : String) : String :=
  String.mk (s.data.map Char.toLower)

/-- Case-insensitive containment test, the model of `pattern.test(text)`
for a regex that is an alternation of fixed lowercase literals under the
`i` flag. -/
def testLit (text : String) (lit : String) : Bool :=
  jsIncludes (jsToLower text) lit

/-- Test of an alternation of literals: true when any literal occurs. -/
def testAny (text : String) (lits : List String) : Bool :=
  lits.any (testLit text)

/-- Model of JS `String.prototype.trim` (strip whitespace on both ends). -/
def jsTrim (s : String) : String :=
  String.mk (((s.data.dropWhile Char.isWhitespace).reverse.dropWhile
    Char.isWhitespace).reverse)

/- ===================== JS number primitives ===================== -/

/-- Numeric value of a list of decimal digit characters. -/
def digitsToNat (l : List Char) : Nat :=
  l.foldl (fun n c => n * 10 + (c.toNat - 48)) 0

/-- Rational value of an integer digit part and a fraction digit part:
the exact decimal `int.frac`, built as a single normalized fraction. -/
def ratOfDigits (intDs fracDs : List Char) : Rat :=
  mkRat (digitsToNat intDs * 10 ^ fracDs.length + digitsToNat fracDs) (10 ^ fracDs.length)

/-- Model of JS `Number(string)` restricted to optionally signed decimal
literals: whitespace is trimmed, the empty string converts to `0`, a
string that is not a decimal literal converts to NaN, encoded `none`
(hex, exponent and infinity forms are outside the modelled domain). -/
def jsStringToNumber (s : String) : Option Rat :=
  let t := (jsTrim s).data
  match t with
  | [] => some 0
  | _ =>
    let (sign, body) :=
      match t with
      | '-' :: rest => ((-1 : Rat), rest)
      | '+' :: rest => ((1 : Rat), rest)
      | _ => ((1 : Rat), t)
    let (intDs, rest1) := body.span Char.isDigit
    match rest1 with
    | [] => if intDs.isEmpty then none else some (sign * ratOfDigits intDs [])
    | '.' :: rest2 =>
      let (fracDs, rest3) := rest2.span Char.isDigit
      if rest3.isEmpty ∧ ¬(intDs.isEmpty ∧ fracDs.isEmpty) then
        some (sign * ratOfDigits intDs fracDs)
      else none
    | _ => none

/-- Canonical model of JS number-to-string conversion. It is exact for
integers (the only values the checked properties stringify); a
non-integral rational is rendered as a fraction, a formatting the real
host renders as a decimal expansion. -/
def jsNumToString (q : Rat) : String :=
  if q.den = 1 then toString q.num else toString q.num ++ "/" ++ toString q.den

/- ===================== Dynamic JS values ===================== -/

/-- A dynamic JavaScript value as stored in a Parquet row record:
a string, a number, or null/undefined. -/
inductive JSVal where
  | str (s : String)
  | num (q : Rat)
  | null
deriving DecidableEq

/-- True exactly on numbers, the model of `typeof v === "number"`. -/
def JSVal.isNum : JSVal → Bool
  | .num _ => true
  | _ => false

/-- Embedding of `safeString` (parquet reader): null/undefined become the
empty string, every other value is `String(value)`. -/
def safeString : JSVal → String
  | .null => ""
  | .str s => s
  | .num q => jsNumToString q

/-- Embedding of `safeNumber` (parquet reader): null/undefined become `0`,
strings go through `Number(...)` with NaN collapsed to `0`. -/
def safeNumber : JSVal → Rat
  | .null => 0
  | .num q => q
  | .str s => (jsStringToNumber s).getD 0

/- ===================== Parquet reader rows ===================== -/

/-- A raw Parquet data row restricted to the columns the reader touches
(`Record<string, unknown>` in the source). -/
structure RawRow where
  rate_code : JSVal
  rate_original_name : JSVal
  rate_name_english : JSVal
  rate_unit : JSVal
  resource_price_per_unit : JSVal
  category_type : JSVal
  subcategory : JSVal
  resource_type : JSVal
  resource_name : JSVal
  resource_unit : JSVal
  resource_quantity : JSVal
deriving DecidableEq

/-- Dynamic column access `row[col]`; unknown keys read as undefined. -/
def getField (r : RawRow) (col : String) : JSVal :=
  match col with
  | "rate_code" => r.rate_code
  | "rate_original_name" => r.rate_original_name
  | "rate_name_english" => r.rate_name_english
  | "rate_unit" => r.rate_unit
  | "resource_price_per_unit" => r.resource_price_per_unit
  | "category_type" => r.category_type
  | "subcategory" => r.subcategory
  | "resource_type" => r.resource_type
  | "resource_name" => r.resource_name
  | "resource_unit" => r.resource_unit
  | "resource_quantity" => r.resource_quantity
  | _ => JSVal.null

/-- Sort direction of `QueryOptions.sortOrder`. -/
inductive SortOrder where
  | asc
  | desc
deriving DecidableEq

/-- Embedding of `QueryOptions` with the destructuring defaults of
`queryWorkItems`. -/
structure QueryOptions where
  page : Int := 1
  limit : Int := 100
  search : String := ""
  category : String := ""
  sortBy : String := "rate_code"
  sortOrder : SortOrder := SortOrder.asc
  minPrice : Option Rat := none
  maxPrice : Option Rat := none

/-- The global-search predicate of `queryWorkItems`: case-insensitive
substring containment over rate name, rate code and resource name. -/
def searchPred (searchLower : String) (r : RawRow) : Bool :=
  jsIncludes (jsToLower (safeString r.rate_original_name)) searchLower ||
  jsIncludes (jsToLower (safeString r.rate_code)) searchLower ||
  jsIncludes (jsToLower (safeString r.resource_name)) searchLower

/-- The `if (search)` filter step of `queryWorkItems`. -/
def applySearch (search : String) (rows : List RawRow) : List RawRow :=
  if search = "" then rows else rows.filter (searchPred (jsToLower search))

/-- The `if (category)` filter step of `queryWorkItems`. -/
def applyCategory (category : String) (rows : List RawRow) : List RawRow :=
  if category = "" then rows
  else rows.filter (fun r => safeString r.category_type == category)

/-- The row test of the `minPrice` filter:
`safeNumber(row.resource_price_per_unit) >= minPrice`. -/
def minPricePred (m : Rat) (r : RawRow) : Bool :=
  decide (m ≤ safeNumber r.resource_price_per_unit)

/-- The row test of the `maxPrice` filter:
`safeNumber(row.resource_price_per_unit) <= maxPrice`. -/
def maxPricePred (m : Rat) (r : RawRow) : Bool :=
  decide (safeNumber r.resource_price_per_unit ≤ m)

/-- The `if (minPrice !== undefined)` filter step of `queryWorkItems`. -/
def applyMinPrice (minPrice : Option Rat) (rows : List RawRow) : List RawRow :=
  match minPrice with
  | none => rows
  | some m => rows.filter (minPricePred m)

/-- The `if (maxPrice !== undefined)` filter step of `queryWorkItems`. -/
def applyMaxPrice (maxPrice : Option Rat) (rows : List RawRow) : List RawRow :=
  match maxPrice with
  | none => rows
  | some m => rows.filter (maxPricePred m)

/-- The whitelist `validSortColumns` of `queryWorkItems`. -/
def validSortColumns : List String :=
  [ "rate_code", "rate_original_name", "resource_price_per_unit", "category_type" ]

/-- Embedding of the sort comparator of `queryWorkItems`. The host
`localeCompare` is passed in as the parameter `lc` (its order is
locale-defined); numbers compare by signed difference, everything else by
`localeCompare` on the `safeString` forms, in the requested direction. -/
def sortCmp (lc : String → String → Int) (so : SortOrder) (col : String)
    (a b : RawRow) : Rat :=
  let aVal := getField a col
  let bVal := getField b col
  match aVal, bVal with
  | .num x, .num y =>
    match so with
    | .asc => x - y
    | .desc => y - x
  | _, _ =>
    let aStr := safeString aVal
    let bStr := safeString bVal
    match so with
    | .asc => (lc aStr bStr : Rat)
    | .desc => (lc bStr aStr : Rat)

/-- The non-positive-comparator relation the stable sort consumes. -/
def leRow (lc : String → String → Int) (so : SortOrder) (col : String)
    (a b : RawRow) : Bool :=
  decide (sortCmp lc so col a b ≤ 0)

/-- Stable insertion into a run: the new element goes after every element
that compares `le` to it. -/
def jsSortInsert (le : α → α → Bool) (x : α) : List α → List α
  | [] => [x]
  | y :: ys => if le y x then y :: jsSortInsert le x ys else x :: y :: ys

/-- Model of `Array.prototype.sort(comparefn)`: per ES2019 the host sort
is a stable comparison sort, modelled here as stable insertion sort. -/
def jsSortList (le : α → α → Bool) (l : List α) : List α :=
  l.foldl (fun acc y => jsSortInsert le y acc) []

/-- The sorting step of `queryWorkItems`. -/
def sortRows (lc : String → String → Int) (so : SortOrder) (col : String)
    (rows : List RawRow) : List RawRow :=
  jsSortList (leRow lc so col) rows

/-- Model of `Array.prototype.slice(start, end)` with the ECMAScript
negative-index clamping. -/
def jsSlice (l : List α) (start endIdx : Int) : List α :=
  let len : Int := l.length
  let s := if start < 0 then max (len + start) 0 else min start len
  let e := if endIdx < 0 then max (len + endIdx) 0 else min endIdx len
  (l.drop s.toNat).take (e - s).toNat

/-- The `WorkItem` record the reader maps paginated rows to. -/
structure WorkItem where
  id : String
  rate_code : String
  rate_original_name : String
  rate_name_english : String
  rate_unit : String
  resource_price_per_unit : Rat
  category_type : String
  subcategory : String
  resource_type : String
  resource_name : String
  resource_unit : String
  resource_quantity : Rat
deriving DecidableEq

/-- The row-to-`WorkItem` mapping of `queryWorkItems`; the id is
`String(offset + index + 1)`. -/
def mapRowToWorkItem (offset : Int) (idx : Nat) (r : RawRow) : WorkItem :=
  { id := toString (offset + idx + 1)
    rate_code := safeString r.rate_code
    rate_original_name := safeString r.rate_original_name
    rate_name_english := safeString r.rate_name_english
    rate_unit := safeString r.rate_unit
    resource_price_per_unit := safeNumber r.resource_price_per_unit
    category_type := safeString r.category_type
    subcategory := safeString r.subcategory
    resource_type := safeString r.resource_type
    resource_name := safeString r.resource_name
    resource_unit := safeString r.resource_unit
    resource_quantity := safeNumber r.resource_quantity }

/-- Embedding of `QueryResult`. -/
structure QueryResult where
  items : List WorkItem
  total : Nat
  page : Int
  totalPages : Int
  limit : Int
deriving DecidableEq

/-- Model of `Math.ceil(total / limit)` on the domain the reader uses
(a non-negative total and a positive limit; a non-positive limit gives a
host infinity, outside the modelled domain and rendered as `0`). -/
def mathCeilPages (total : Nat) (limit : Int) : Int :=
  if 0 < limit then ((total : Int) + limit - 1) / limit else 0

/-- Embedding of `queryWorkItems`: the pure core of the reader query —
search, category and price filters, whitelist-validated stable sort,
pagination and the `WorkItem` mapping. Loading and the two caches are
I/O plumbing around this function and are not modelled. -/
def queryWorkItems (lc : String → String → Int) (rows : List RawRow)
    (o : QueryOptions) : QueryResult :=
  let afterSearch := applySearch o.search rows
  let afterCategory := applyCategory o.category afterSearch
  let afterMin := applyMinPrice o.minPrice afterCategory
  let afterMax := applyMaxPrice o.maxPrice afterMin
  let total := afterMax.length
  let safeSort := if validSortColumns.contains o.sortBy then o.sortBy else "rate_code"
  let sorted := sortRows lc o.sortOrder safeSort afterMax
  let offset := (o.page - 1) * o.limit
  let paginated := jsSlice sorted offset (offset + o.limit)
  { items := paginated.enum.map (fun p => mapRowToWorkItem offset p.1 p.2)
    total := total
    page := o.page
    totalPages := mathCeilPages total o.limit
    limit := o.limit }

/- ===================== SmartFilter: types ===================== -/

/-- Embedding of the `FilterOperator` union of `SmartFilter`. The source
operator string `in` is rendered `inList` (`in` is a reserved word here). -/
inductive FilterOperator where
  | eq
  | neq
  | gt
  | gte
  | lt
  | lte
  | contains
  | between
  | inList
deriving DecidableEq

/-- Embedding of the `FilterUnit` union of `SmartFilter`. -/
inductive FilterUnit where
  | EUR
  | USD
  | sqm
  | sqft
  | kg
  | ton
  | unit
  | none
deriving DecidableEq

/-- The value of a parsed filter: `string | number | [number, number]`. -/
inductive FilterValue where
  | str (s : String)
  | num (q : Rat)
  | range (lo hi : Rat)
deriving DecidableEq

/-- Embedding of the `ParsedFilter` record. -/
structure ParsedFilter where
  id : String
  field : String
  operator : FilterOperator
  value : FilterValue
  unit : FilterUnit
  rawInput : String
  displayLabel : String
deriving DecidableEq

/-- Embedding of the `ParseResult` record. -/
structure ParseResult where
  success : Bool
  filters : List ParsedFilter
  unrecognized : List String
deriving DecidableEq

/- ===================== SmartFilter: pattern tables ===================== -/

/-- Embedding of `fieldAliases`, in the source insertion order (the order
`Object.entries` iterates). -/
def fieldAliases : List (String × List String) :=
  [ ( "cost", [ "cost", "costo", "price", "precio", "amount", "monto", "value", "valor" ]),
    ( "material", [ "material", "materiales", "materials", "item", "items", "producto" ]),
    ( "area", [ "area", "superficie", "surface", "size", "tamano", "m2", "sqm" ]),
    ( "quantity", [ "quantity", "cantidad", "qty", "units", "unidades", "count" ]),
    ( "weight", [ "weight", "peso", "kg", "kilos", "ton", "tons", "toneladas" ]),
    ( "date", [ "date", "fecha", "created", "creado", "updated", "modified" ]),
    ( "status", [ "status", "estado", "state" ]),
    ( "supplier", [ "supplier", "proveedor", "vendor", "provider" ]),
    ( "category", [ "category", "categoria", "type", "tipo" ]) ]

/-- Embedding of `operatorPatterns`, in source order. Every source regex
is an alternation of fixed literals under the `i` flag (the optional
suffix `a?` of `igual a?` is expanded into its two forms), so a regex
test is containment of one of the listed lowercase literals. -/
def operatorPatterns : List (List String × FilterOperator) :=
  [ ([ ">=", "≥", "mayor o igual", "greater than or equal" ], FilterOperator.gte),
    ([ "<=", "≤", "menor o igual", "less than or equal" ], FilterOperator.lte),
    ([ "!=", "<>", "≠", "no es", "not equal", "diferente" ], FilterOperator.neq),
    ([ ">", "mayor que", "greater than", "mas de", "more than" ], FilterOperator.gt),
    ([ "<", "menor que", "less than", "menos de" ], FilterOperator.lt),
    ([ "=", "es", "equals", "igual a", "igual " ], FilterOperator.eq),
    ([ "entre", "between" ], FilterOperator.between),
    ([ "contiene", "contains", "incluye", "includes", "con " ], FilterOperator.contains) ]

/-- Embedding of `unitPatterns`, in source order, with optional-suffix
regex pieces (`euros?`, `metros? cuadrados?`, ...) expanded into their
alternative literal forms. -/
def unitPatterns : List (List String × FilterUnit) :=
  [ ([ "€", "eur", "euros", "euro" ], FilterUnit.EUR),
    ([ "$", "usd", "dollars", "dollar", "dolares", "dolare" ], FilterUnit.USD),
    ([ "m²", "m2", "sqm", "metros cuadrados", "metros cuadrado",
       "metro cuadrados", "metro cuadrado", "square meters", "square meter" ],
      FilterUnit.sqm),
    ([ "ft²", "sqft", "square feet", "pies cuadrados", "pies cuadrado",
       "pie cuadrados", "pie cuadrado" ], FilterUnit.sqft),
    ([ "kg", "kilos", "kilo", "kilogramos", "kilogramo" ], FilterUnit.kg),
    ([ "ton", "tons", "toneladas", "tonelada" ], FilterUnit.ton),
    ([ "unidad", "unidades", "unit", "units", "pcs", "piezas", "pieza" ],
      FilterUnit.unit) ]

/- ===================== SmartFilter: detection ===================== -/

/-- Embedding of `resolveField`: the first field one of whose aliases is
contained in the lowercased, trimmed input. -/
def resolveField (input : String) : Option String :=
  let normalizedInput := jsToLower (jsTrim input)
  (fieldAliases.find? (fun p => p.2.any (fun al => jsIncludes normalizedInput al))).map
    (fun p => p.1)

/-- Embedding of `detectOperator`: the first operator pattern, in order,
that tests true on the text. -/
def detectOperator (text : String) : Option FilterOperator :=
  (operatorPatterns.find? (fun p => testAny text p.1)).map (fun p => p.2)

/-- The operator actually attached to a segment by
`parseNaturalLanguageQuery`: `detectOperator(segment) || 'contains'`
(every operator string is truthy, so `||` is a null fallback). -/
def segOperator (text : String) : FilterOperator :=
  (detectOperator text).getD FilterOperator.contains

/-- Embedding of `detectUnit`: the first unit pattern that tests true,
defaulting to `none`. -/
def detectUnit (text : String) : FilterUnit :=
  match unitPatterns.find? (fun p => testAny text p.1) with
  | some p => p.2
  | Option.none => FilterUnit.none

/- ===================== SmartFilter: value extraction ===================== -/

/-- Attempt of the number piece `\d+(?:[.,]\d+)?` at the head of the
suffix: a maximal digit run, optionally a decimal separator followed by a
maximal digit run (the greedy semantics of the regex; the `,` separator
is the `parseFloat(x.replace(",", "."))` of the source). Returns the
numeric value and the rest of the input. -/
def matchNum (l : List Char) : Option (Rat × List Char) :=
  let ds := l.takeWhile Char.isDigit
  let rest1 := l.dropWhile Char.isDigit
  if ds.isEmpty then Option.none
  else
    match rest1 with
    | c :: rest2 =>
      if c = '.' ∨ c = ',' then
        let fs := rest2.takeWhile Char.isDigit
        let rest3 := rest2.dropWhile Char.isDigit
        if fs.isEmpty then some (ratOfDigits ds [], rest1)
        else some (ratOfDigits ds fs, rest3)
      else some (ratOfDigits ds [], rest1)
    | [] => some (ratOfDigits ds [], rest1)

/-- Attempt of the range separator `(?:-|to|a|y)` (case-insensitive) at
the head of the suffix, in the alternation order of the source regex. -/
def matchSep (l : List Char) : Option (List Char) :=
  match l with
  | [] => Option.none
  | '-' :: rest => some rest
  | c :: rest =>
    if c.toLower = 't' then
      match rest with
      | d :: rest2 => if d.toLower = 'o' then some rest2 else Option.none
      | [] => Option.none
    else if c.toLower = 'a' then some rest
    else if c.toLower = 'y' then some rest
    else Option.none

/-- Attempt of the full range regex
`(\d+(?:[.,]\d+)?)\s*(?:-|to|a|y)\s*(\d+(?:[.,]\d+)?)` at one start
position. Greedy matching needs no backtracking here: after a digit run
neither a separator nor whitespace can be a digit or a decimal separator. -/
def matchRangeAt (l : List Char) : Option (Rat × Rat) :=
  match matchNum l with
  | Option.none => Option.none
  | some (v1, rest1) =>
    let rest2 := rest1.dropWhile Char.isWhitespace
    match matchSep rest2 with
    | Option.none => Option.none
    | some rest3 =>
      let rest4 := rest3.dropWhile Char.isWhitespace
      match matchNum rest4 with
      | Option.none => Option.none
      | some (v2, _) => some (v1, v2)

/-- Leftmost match of the range regex: the first start position at which
`matchRangeAt` succeeds, the semantics of `text.match(...)`. -/
def findRange : List Char → Option (Rat × Rat)
  | [] => Option.none
  | c :: rest =>
    match matchRangeAt (c :: rest) with
    | some r => some r
    | Option.none => findRange rest

/-- Leftmost match of the single-number regex `(\d+(?:[.,]\d+)?)`. -/
def findNumber : List Char → Option Rat
  | [] => Option.none
  | c :: rest =>
    match matchNum (c :: rest) with
    | some (v, _) => some v
    | Option.none => findNumber rest

/-- The operator characters removed by the first cleaning pass
`replace(/[<>=!≥≤≠]/g, "")`. -/
def opChars : List Char :=
  [ '<', '>', '=', '!', '≥', '≤', '≠' ]

/-- The alternatives of the word-cleaning regex of `extractValue`, in
source order, with `includes?` and `contains?` expanded greedily into
their long form followed by their short form. -/
def cleanupLits : List String :=
  [ "mayor", "menor", "igual", "que", "a", "de", "o", "es", "no", "entre",
    "y", "contiene", "con", "includes", "include", "greater", "less",
    "than", "equal", "between", "and", "contains", "contain" ]

/-- Case-insensitive test of a fixed lowercase literal at the head of the
suffix. -/
def matchLitAt (l : List Char) (lit : String) : Bool :=
  decide ((l.take lit.length).map Char.toLower = lit.data)

/-- Length of the first cleanup alternative matching at this position,
in alternation order, the way a global `replace` picks its match. -/
def findLitAt (l : List Char) : Option Nat :=
  (cleanupLits.find? (matchLitAt l)).map String.length

/-- Global replacement of every cleanup-literal occurrence by the empty
string, scanning left to right; `fuel` bounds the recursion and one unit
per consumed character suffices since every alternative is non-empty. -/
def removeWords : Nat → List Char → List Char
  | 0, l => l
  | _ + 1, [] => []
  | fuel + 1, c :: rest =>
    match findLitAt (c :: rest) with
    | some n => removeWords fuel ((c :: rest).drop n)
    | Option.none => c :: removeWords fuel rest

/-- Embedding of `extractValue`: a range match takes priority over a
single-number match, which takes priority over the cleaned remainder as
a string; an empty remainder yields null (`none`). -/
def extractValue (text : String) : Option FilterValue :=
  match findRange text.data with
  | some (lo, hi) => some (FilterValue.range lo hi)
  | Option.none =>
    match findNumber text.data with
    | some n => some (FilterValue.num n)
    | Option.none =>
      let noOps := text.data.filter (fun c => !(opChars.contains c))
      let cleaned := jsTrim (String.mk (removeWords noOps.length noOps))
      if 0 < cleaned.length then some (FilterValue.str cleaned) else Option.none

/- ===================== SmartFilter: display label ===================== -/

/-- The `operatorSymbols` table of `createDisplayLabel`. -/
def operatorSymbol : FilterOperator → String
  | FilterOperator.eq => "="
  | FilterOperator.neq => "!="
  | FilterOperator.gt => ">"
  | FilterOperator.gte => ">="
  | FilterOperator.lt => "<"
  | FilterOperator.lte => "<="
  | FilterOperator.contains => ":"
  | FilterOperator.between => ":"
  | FilterOperator.inList => ":"

/-- The source string name of a unit tag (used as the display fallback
when `unitSymbols` has no entry). -/
def unitName : FilterUnit → String
  | FilterUnit.EUR => "EUR"
  | FilterUnit.USD => "USD"
  | FilterUnit.sqm => "sqm"
  | FilterUnit.sqft => "sqft"
  | FilterUnit.kg => "kg"
  | FilterUnit.ton => "ton"
  | FilterUnit.unit => "unit"
  | FilterUnit.none => "none"

/-- The partial `unitSymbols` table of `createDisplayLabel`. -/
def unitSymbol : FilterUnit → Option String
  | FilterUnit.EUR => some "€"
  | FilterUnit.USD => some "$"
  | FilterUnit.sqm => some "m²"
  | FilterUnit.sqft => some "ft²"
  | FilterUnit.kg => some "kg"
  | FilterUnit.ton => some "ton"
  | _ => Option.none

/-- JS stringification of a filter value inside a display label
(`${value[0]}-${value[1]}` for a range, `String(value)` otherwise). -/
def renderValue : FilterValue → String
  | FilterValue.str s => s
  | FilterValue.num q => jsNumToString q
  | FilterValue.range lo hi => jsNumToString lo ++ "-" ++ jsNumToString hi

/-- Embedding of `createDisplayLabel`. -/
def createDisplayLabel (field : String) (op : FilterOperator)
    (value : FilterValue) (u : FilterUnit) : String :=
  let valueStr := renderValue value
  let unitSuffix :=
    match u with
    | FilterUnit.none => ""
    | _ => " " ++ ((unitSymbol u).getD (unitName u))
  field ++ " " ++ operatorSymbol op ++ " " ++ valueStr ++ unitSuffix

/- ===================== SmartFilter: the parser ===================== -/

/-- Model of `generateFilterId`: the module counter is threaded
explicitly; the `Date.now()` timestamp component is host time and is
omitted from the id. -/
def generateFilterId (counter : Nat) : String :=
  "filter-" ++ toString counter

/-- Check of the `\s+y\s+` / `\s+and\s+` delimiter word after a
whitespace run, in alternation order, with the trailing mandatory
whitespace consumed greedily. Returns the rest after the delimiter. -/
def wordBoundary (l : List Char) : Option (List Char) :=
  match l with
  | [] => Option.none
  | c :: rest =>
    if c.toLower = 'y' then
      match rest with
      | d :: _ => if d.isWhitespace then some (rest.dropWhile Char.isWhitespace) else Option.none
      | [] => Option.none
    else
      match l with
      | a :: n :: d :: rest3 =>
        if a.toLower = 'a' ∧ n.toLower = 'n' ∧ d.toLower = 'd' then
          match rest3 with
          | e :: _ =>
            if e.isWhitespace then some (rest3.dropWhile Char.isWhitespace) else Option.none
          | [] => Option.none
        else Option.none
      | _ => Option.none

/-- Scanner of `query.split(/[,;]|\s+y\s+|\s+and\s+/i)`: a comma or
semicolon splits immediately; a whitespace run followed by `y`/`and` and
further whitespace splits consuming the whole delimiter; everything else
is segment content. `fuel` bounds the recursion; every step consumes at
least one character, so the input length suffices. -/
def splitGo : Nat → List Char → List Char → List String
  | 0, cur, l => [ String.mk cur.reverse ++ String.mk l ]
  | _ + 1, cur, [] => [ String.mk cur.reverse ]
  | fuel + 1, cur, c :: rest =>
    if c = ',' ∨ c = ';' then
      String.mk cur.reverse :: splitGo fuel [] rest
    else if c.isWhitespace then
      let ws := (c :: rest).takeWhile Char.isWhitespace
      let after := (c :: rest).dropWhile Char.isWhitespace
      match wordBoundary after with
      | some rest2 => String.mk cur.reverse :: splitGo fuel [] rest2
      | Option.none => splitGo fuel (ws.reverse ++ cur) after
    else
      splitGo fuel (c :: cur) rest

/-- The raw pieces of the delimiter split of `parseNaturalLanguageQuery`. -/
def splitQuery (q : String) : List String :=
  splitGo q.data.length [] q.data

/-- The segment list of `parseNaturalLanguageQuery`:
`split(...).map(s => s.trim()).filter(Boolean)`. -/
def segments (q : String) : List String :=
  ((splitQuery q).map jsTrim).filter (fun s => s != "")

/-- The segment loop of `parseNaturalLanguageQuery`: a segment with a
resolved field and a non-null value becomes a filter; otherwise it is
collected as unrecognized exactly when its length exceeds 2. -/
def processSegments : Nat → List String → (List ParsedFilter × List String)
  | _, [] => ([], [])
  | counter, seg :: rest =>
    let field := resolveField seg
    let op := segOperator seg
    let value := extractValue seg
    let u := detectUnit seg
    match field, value with
    | some f, some v =>
      let counter2 := counter + 1
      let pf : ParsedFilter :=
        { id := generateFilterId counter2
          field := f
          operator := op
          value := v
          unit := u
          rawInput := seg
          displayLabel := createDisplayLabel f op v u }
      let prev := processSegments counter2 rest
      (pf :: prev.1, prev.2)
    | _, _ =>
      let prev := processSegments counter rest
      if 2 < seg.length then (prev.1, seg :: prev.2) else prev

/-- Embedding of `parseNaturalLanguageQuery`. -/
def parseNaturalLanguageQuery (query : String) : ParseResult :=
  let segs := segments query
  let res := processSegments 0 segs
  { success := decide (0 < res.1.length)
    filters := res.1
    unrecognized := res.2 }

/- ===================== Table store ===================== -/

/-- Embedding of `ViewMode`. -/
inductive ViewMode where
  | table
  | grid
deriving DecidableEq

/-- Embedding of the structured `FilterOperator` union of
`components/domain/data/types.ts` (distinct from the SmartFilter one). -/
inductive TableFilterOperator where
  | equals
  | contains
  | startsWith
  | endsWith
  | gt
  | gte
  | lt
  | lte
  | between
deriving DecidableEq

/-- A `string | number` value. -/
inductive StrOrNum where
  | str (s : String)
  | num (q : Rat)
deriving DecidableEq

/-- Embedding of the structured `FilterCondition` record. -/
structure FilterCondition where
  column : String
  operator : TableFilterOperator
  value : StrOrNum
  secondValue : Option Rat
deriving DecidableEq

/-- Embedding of `TableFilters`. -/
structure TableFilters where
  globalSearch : String
  conditions : List FilterCondition
deriving DecidableEq

/-- Embedding of `DEFAULT_FILTERS`. -/
def DEFAULT_FILTERS : TableFilters :=
  { globalSearch := "", conditions := [] }

/-- Embedding of `DEFAULT_VISIBLE_COLUMNS` (column keys are modelled as
strings). -/
def DEFAULT_VISIBLE_COLUMNS : List String :=
  [ "id", "descripcion", "costoUnitario", "cantidad", "unidad", "subtotal" ]

/-- One entry of a TanStack `SortingState`. -/
structure SortEntry where
  id : String
  desc : Bool
deriving DecidableEq

/-- Embedding of the data fields of the table store (`TableState`). -/
structure TableState where
  viewMode : ViewMode
  filters : TableFilters
  visibleColumns : List String
  sorting : List SortEntry
  columnVisibility : List (String × Bool)
  columnSizing : List (String × Rat)
deriving DecidableEq

/-- Embedding of the store `initialState`. -/
def initialState : TableState :=
  { viewMode := ViewMode.table
    filters := DEFAULT_FILTERS
    visibleColumns := DEFAULT_VISIBLE_COLUMNS
    sorting := []
    columnVisibility := []
    columnSizing := [] }

/-- Embedding of the `toggleColumn` action on the visible-column list:
hiding is refused when only one column is visible; hiding removes the
column by filtering; showing appends it. -/
def toggleColumn (column : String) (visibleColumns : List String) : List String :=
  if visibleColumns.contains column then
    if 1 < visibleColumns.length then
      visibleColumns.filter (fun c => c != column)
    else visibleColumns
  else visibleColumns ++ [ column ]

/-- Embedding of the `setVisibleColumns` action: the payload replaces the
visible-column list unvalidated. -/
def setVisibleColumns (columns : List String) (_ : List String) : List String :=
  columns

/-- A sequence of `toggleColumn` invocations applied in order. -/
def applyToggles (seq : List String) (visibleColumns : List String) : List String :=
  seq.foldl (fun acc c => toggleColumn c acc) visibleColumns

/-- Embedding of the persisted subset produced by `partialize`: the
record type has exactly the five persisted fields and no filter,
search or selection field. -/
structure PersistedTableState where
  viewMode : ViewMode
  visibleColumns : List String
  sorting : List SortEntry
  columnVisibility : List (String × Bool)
  columnSizing : List (String × Rat)
deriving DecidableEq

/-- Embedding of the `partialize` function of the store persistence
configuration. -/
def partialize (s : TableState) : PersistedTableState :=
  { viewMode := s.viewMode
    visibleColumns := s.visibleColumns
    sorting := s.sorting
    columnVisibility := s.columnVisibility
    columnSizing := s.columnSizing }

/- ===================== Work-item mapper ===================== -/

/-- Embedding of the `DDCWorkItem` fields the mapper reads (nullable
per the dataset documentation). -/
structure DDCWorkItem where
  rate_code : Option String
  rate_original_name : Option String
  resource_name : Option String
  rate_unit : Option String
  resource_unit : Option String
  category_type : Option String
  department_name : Option String
  resource_price_per_unit : Option Rat
  price_est_median : Option Rat
  price_est_mean : Option Rat
  resource_quantity : Option Rat
  resource_cost : Option Rat
deriving DecidableEq

/-- Embedding of `ConstructionItem`. -/
structure ConstructionItem where
  id : String
  descripcion : String
  costoUnitario : Rat
  cantidad : Rat
  unidad : String
  subtotal : Rat
  imagenUrl : Option String
  categoria : Option String
  notas : Option String
deriving DecidableEq

/-- Embedding of `ConstructionItemInput` (a `ConstructionItem` without
the computed `subtotal`). -/
structure ConstructionItemInput where
  id : String
  descripcion : String
  costoUnitario : Rat
  cantidad : Rat
  unidad : String
  imagenUrl : Option String
  categoria : Option String
  notas : Option String
deriving DecidableEq

/-- Embedding of `createConstructionItem`: spread of the input plus the
computed subtotal. -/
def createConstructionItem (input : ConstructionItemInput) : ConstructionItem :=
  { id := input.id
    descripcion := input.descripcion
    costoUnitario := input.costoUnitario
    cantidad := input.cantidad
    unidad := input.unidad
    subtotal := input.costoUnitario * input.cantidad
    imagenUrl := input.imagenUrl
    categoria := input.categoria
    notas := input.notas }

/-- JS `a || fallback` on a nullable string: null, undefined and the
empty string all select the fallback. -/
def jsOrString (v : Option String) (fallback : String) : String :=
  match v with
  | some s => if s = "" then fallback else s
  | none => fallback

/-- JS truthiness filter on a nullable string (`x || undefined`). -/
def jsTruthyOpt (v : Option String) : Option String :=
  match v with
  | some s => if s = "" then none else some s
  | none => none

/-- Model of `String.prototype.padStart(n, "0")`. -/
def padStartZeros (n : Nat) (s : String) : String :=
  String.mk (List.replicate (n - s.length) '0') ++ s

/-- The fallback id of the mapper. -/
def itemFallbackId (index : Nat) : String :=
  "ITEM-" ++ padStartZeros 5 (toString index)

/-- Embedding of `mapToConstructionItem`: fallback price chain
(`resource_price_per_unit ?? price_est_median ?? price_est_mean ?? 0`),
quantity default 1, subtotal from the override `resource_cost` or
computed as price times quantity. -/
def mapToConstructionItem (row : DDCWorkItem) (index : Nat) : ConstructionItem :=
  let unitPrice :=
    match row.resource_price_per_unit with
    | some p => p
    | none =>
      match row.price_est_median with
      | some m => m
      | none =>
        match row.price_est_mean with
        | some m => m
        | none => 0
  let quantity :=
    match row.resource_quantity with
    | some q => q
    | none => 1
  let subtotal :=
    match row.resource_cost with
    | some c => c
    | none => unitPrice * quantity
  { id := jsOrString row.rate_code (itemFallbackId index)
    descripcion := jsOrString row.rate_original_name (jsOrString row.resource_name "Unknown Item")
    costoUnitario := unitPrice
    cantidad := quantity
    unidad := jsOrString row.rate_unit (jsOrString row.resource_unit "unit")
    subtotal := subtotal
    imagenUrl := none
    categoria :=
      match jsTruthyOpt row.category_type with
      | some s => some s
      | none => jsTruthyOpt row.department_name
    notas := none }

/- ===================== DataTable virtualization ===================== -/

/-- One virtual row as produced by the virtualizer: its row index, its
start and end offsets and its height. -/
structure VirtualItem where
  index : Nat
  start : Nat
  stop : Nat
  size : Nat
deriving DecidableEq

/-- The virtual row of index `i` under a constant row height `h`:
it spans the offsets from `i * h` to `(i + 1) * h`. -/
def mkVirtualItem (h i : Nat) : VirtualItem :=
  { index := i, start := i * h, stop := (i + 1) * h, size := h }

/-- Modelled from the spec: the window computation of the external
TanStack Virtual `useVirtualizer` (not part of this repository): the
window of materialized rows covers every row at least partially visible
in the viewport, extended by `overscan` rows on each side and clamped to
the index range; with the constant `estimateSize` every row `i` spans
`[i * rowHeight, (i + 1) * rowHeight)`. -/
def computeWindow (totalCount scrollOffset viewportHeight rowHeight overscan : Nat) :
    List VirtualItem :=
  if totalCount = 0 then []
  else
    let firstVisible := scrollOffset / rowHeight
    let lastVisible := (scrollOffset + viewportHeight + rowHeight - 1) / rowHeight - 1
    let first := min (firstVisible - overscan) (totalCount - 1)
    let last := min (lastVisible + overscan) (totalCount - 1)
    (List.range' first (last + 1 - first)).map (mkVirtualItem rowHeight)

/-- Modelled from the spec: `getTotalSize()` of the virtualizer, the full
scrollable height `totalCount * rowHeight`. -/
def virtTotalSize (totalCount rowHeight : Nat) : Nat :=
  totalCount * rowHeight

/-- Embedding of the `paddingTop` computation of `DataTable`:
`virtualRows.length > 0 ? virtualRows[0]?.start ?? 0 : 0`. -/
def paddingTop (virtualRows : List VirtualItem) : Int :=
  if 0 < virtualRows.length then
    (((virtualRows.head?).map VirtualItem.start).getD 0 : Nat)
  else 0

/-- Embedding of the `paddingBottom` computation of `DataTable`:
`totalSize - (virtualRows[virtualRows.length - 1]?.end ?? 0)` when the
window is non-empty. -/
def paddingBottom (virtualRows : List VirtualItem) (totalSize : Nat) : Int :=
  if 0 < virtualRows.length then
    (totalSize : Int) - ((((virtualRows.getLast?).map VirtualItem.stop).getD 0 : Nat) : Int)
  else 0

/- ===================== Concrete instances ===================== -/

/-- A concrete `localeCompare` instantiation for witnesses: the constant
zero comparator (every string compares equal). -/
def lcZero : String → String → Int := fun _ _ => 0

/-- A row carrying only an identifying rate code and a cost value, the
shape of the end-to-end scenario rows. -/
def mkCostRow (code : String) (cost : JSVal) : RawRow :=
  { rate_code := JSVal.str code
    rate_original_name := JSVal.null
    rate_name_english := JSVal.null
    rate_unit := JSVal.null
    resource_price_per_unit := cost
    category_type := JSVal.null
    subcategory := JSVal.null
    resource_type := JSVal.null
    resource_name := JSVal.null
    resource_unit := JSVal.null
    resource_quantity := JSVal.null }

/-- Scenario row A with cost 50. -/
def rowA : RawRow := mkCostRow "A" (JSVal.num 50)

/-- Scenario row B with cost 150. -/
def rowB : RawRow := mkCostRow "B" (JSVal.num 150)

/-- Scenario row C with a null cost. -/
def rowC : RawRow := mkCostRow "C" JSVal.null

/-- Witness rows sharing the rate code value used by the stability
witness; they differ in cost so the pair order is observable. -/
def rowS1 : RawRow := mkCostRow "S" (JSVal.num 1)

/-- Second stability witness row with the same rate code. -/
def rowS2 : RawRow := mkCostRow "S" (JSVal.num 2)

/-- A DDC row with an authoritative override cost alongside price and
quantity data (override 42, price 5, quantity 3). -/
def ddcRowOverride : DDCWorkItem :=
  { rate_code := some "R1"
    rate_original_name := none
    resource_name := none
    rate_unit := none
    resource_unit := none
    category_type := none
    department_name := none
    resource_price_per_unit := some 5
    price_est_median := none
    price_est_mean := none
    resource_quantity := some 3
    resource_cost := some 42 }

/-- A DDC row without an override cost (price 5, quantity 3). -/
def ddcRowNoCost : DDCWorkItem :=
  { rate_code := some "R2"
    rate_original_name := none
    resource_name := none
    rate_unit := none
    resource_unit := none
    category_type := none
    department_name := none
    resource_price_per_unit := some 5
    price_est_median := none
    price_est_mean := none
    resource_quantity := some 3
    resource_cost := none }

/-- A concrete construction-item input for the `createConstructionItem`
witness. -/
def sampleInput : ConstructionItemInput :=
  { id := "I1"
    descripcion := "sample"
    costoUnitario := 7
    cantidad := 4
    unidad := "unit"
    imagenUrl := none
    categoria := none
    notas := none }

/-- Stability witness rows with equal numeric price keys and distinct
rate codes. -/
def rowN1 : RawRow := mkCostRow "N1" (JSVal.num 7)

/-- Second numeric stability witness row with the same price. -/
def rowN2 : RawRow := mkCostRow "N2" (JSVal.num 7)

/- ===================== Lemmas: toggleColumn ===================== -/

set_option maxRecDepth 4000

theorem toggleColumn_preserves (c : String) (vc : List String)
    (hnd : vc.Nodup) (hne : vc ≠ []) :
    (toggleColumn c vc).Nodup ∧ toggleColumn c vc ≠ [] := by
  unfold toggleColumn
  by_cases hmem : vc.contains c
  · rw [if_pos hmem]
    by_cases hlen : 1 < vc.length
    · rw [if_pos hlen]
      refine ⟨hnd.filter _, ?_⟩
      match vc, hnd, hlen with
      | a :: b :: rest, hnd, _ =>
        have hab : a ≠ b := by
          have := (List.nodup_cons.mp hnd).1
          intro h
          exact this (h ▸ List.mem_cons_self b rest)
        by_cases hac : a = c
        · have hbc : (b != c) = true := by
            subst hac
            simpa using Ne.symm hab
          have hmemb : b ∈ (a :: b :: rest).filter (fun x => x != c) :=
            List.mem_filter.mpr ⟨List.mem_cons_of_mem a (List.mem_cons_self b rest), hbc⟩
          exact List.ne_nil_of_mem hmemb
        · have hax : (a != c) = true := by simpa using hac
          have hmema : a ∈ (a :: b :: rest).filter (fun x => x != c) :=
            List.mem_filter.mpr ⟨List.mem_cons_self a (b :: rest), hax⟩
          exact List.ne_nil_of_mem hmema
    · rw [if_neg hlen]
      exact ⟨hnd, hne⟩
  · rw [if_neg hmem]
    constructor
    · have hcmem : c ∉ vc := by
        intro h
        exact hmem (List.elem_eq_true_of_mem h)
      exact List.Nodup.append hnd (List.nodup_singleton c)
        (by
          intro x hx hx1
          rw [List.mem_singleton] at hx1
          exact hcmem (hx1 ▸ hx))
    · simp

theorem applyToggles_preserves (seq : List String) :
    ∀ vc : List String, vc.Nodup → vc ≠ [] →
    (applyToggles seq vc).Nodup ∧ applyToggles seq vc ≠ [] := by
  induction seq with
  | nil => exact fun vc h1 h2 => ⟨h1, h2⟩
  | cons c rest ih =>
    intro vc h1 h2
    have step := toggleColumn_preserves c vc h1 h2
    exact ih (toggleColumn c vc) step.1 step.2

/- ===================== Claim theorems (first batch) ===================== -/

set_option maxRecDepth 100000

/-- Claim C1, counterexample: the claim states that a row with a
missing/null cost fails every comparison filter except not-equals; but
`queryWorkItems` coerces the null cost to 0 through `safeNumber`, so the
null-cost row C passes the less-or-equal comparison `maxPrice = 100` and
is returned, where the claim demands the empty result. -/
theorem c1_counterexample :
    rowC.resource_price_per_unit = JSVal.null
    ∧ (queryWorkItems lcZero [ rowC ] { maxPrice := some 100 }).items.map
        (fun w => w.rate_code) = [ "C" ] := by
  constructor
  · rfl
  · decide

/-- Claim C1, amended: a missing/null cost is coerced to 0 by
`safeNumber`, so a null-cost row passes the `minPrice` (greater-or-equal)
filter exactly when `minPrice ≤ 0` and passes the `maxPrice`
(less-or-equal) filter exactly when `0 ≤ maxPrice`; in particular, for
the rows A (cost 50), B (cost 150), C (cost null) and the filter
`minPrice = 100`, the result set is exactly the row B. -/
theorem c1_amended (r : RawRow) (hnull : r.resource_price_per_unit = JSVal.null)
    (m M : Rat) :
    (queryWorkItems lcZero [ rowA, rowB, rowC ] { minPrice := some 100 }).items.map
        (fun w => w.rate_code) = [ "B" ]
    ∧ minPricePred m r = decide (m ≤ 0)
    ∧ maxPricePred M r = decide (0 ≤ M) := by
  refine ⟨by decide, ?_, ?_⟩
  · simp [minPricePred, hnull, safeNumber]
  · simp [maxPricePred, hnull, safeNumber]

/-- Claim C1 witness: the amended statement at the concrete null-cost
row C and the bound 100. -/
theorem c1_witness :
    rowC.resource_price_per_unit = JSVal.null
    ∧ ((queryWorkItems lcZero [ rowA, rowB, rowC ] { minPrice := some 100 }).items.map
          (fun w => w.rate_code) = [ "B" ]
       ∧ minPricePred 100 rowC = decide ((100 : Rat) ≤ 0)
       ∧ maxPricePred 100 rowC = decide ((0 : Rat) ≤ 100)) :=
  ⟨rfl, c1_amended rowC rfl 100 100⟩

/-- Claim C3: operator detection tests two-character patterns before
their one-character prefixes, so `cost >= 100` detects `gte` (not `gt`)
and `cost != 100` detects `neq` (not the contains fallback); when no
pattern matches, the parser falls back to the `contains` operator. -/
theorem c3_operator_precedence (s : String) (h : detectOperator s = Option.none) :
    detectOperator "cost >= 100" = some FilterOperator.gte
    ∧ detectOperator "cost != 100" = some FilterOperator.neq
    ∧ segOperator s = FilterOperator.contains := by
  refine ⟨by decide, by decide, ?_⟩
  simp [segOperator, h]

/-- Claim C3 witness: the statement at the concrete operator-free
segment `xyz`. -/
theorem c3_witness :
    detectOperator "xyz" = Option.none
    ∧ (detectOperator "cost >= 100" = some FilterOperator.gte
       ∧ detectOperator "cost != 100" = some FilterOperator.neq
       ∧ segOperator "xyz" = FilterOperator.contains) :=
  ⟨by decide, c3_operator_precedence "xyz" (by decide)⟩

/-- Claim C4: parsing the query `materiales > 500€, area < 50m2` yields
exactly the two filters (material, gt, 500, EUR) and (area, lt, 50, sqm)
with an empty unrecognized list. -/
theorem c4_nl_parse_scenario :
    (parseNaturalLanguageQuery "materiales > 500€, area < 50m2").filters.map
        (fun f => (f.field, f.operator, f.value, f.unit))
      = [ ("material", FilterOperator.gt, FilterValue.num 500, FilterUnit.EUR),
          ("area", FilterOperator.lt, FilterValue.num 50, FilterUnit.sqm) ]
    ∧ (parseNaturalLanguageQuery "materiales > 500€, area < 50m2").unrecognized = [] := by
  constructor
  · decide
  · decide

/-- Claim C5: value extraction prioritizes a range match over a single
number, which is prioritized over the string remainder; on the segment
`area 100-500` the extracted value is the pair (100, 500), not 100. -/
theorem c5_value_priority (s t : String) (p : Rat × Rat) (n : Rat)
    (hr : findRange s.data = some p)
    (ht1 : findRange t.data = Option.none) (ht2 : findNumber t.data = some n) :
    extractValue "area 100-500" = some (FilterValue.range 100 500)
    ∧ extractValue s = some (FilterValue.range p.1 p.2)
    ∧ extractValue t = some (FilterValue.num n) := by
  refine ⟨by decide, ?_, ?_⟩
  · simp [extractValue, hr]
  · simp [extractValue, ht1, ht2]

/-- Claim C5 witness: the statement at the concrete segments
`area 100-500` (a range) and `area 55` (a single number). -/
theorem c5_witness :
    findRange ("area 100-500").data = some ((100 : Rat), (500 : Rat))
    ∧ findRange ("area 55").data = Option.none
    ∧ findNumber ("area 55").data = some (55 : Rat)
    ∧ (extractValue "area 100-500" = some (FilterValue.range 100 500)
       ∧ extractValue "area 100-500" = some (FilterValue.range 100 500)
       ∧ extractValue "area 55" = some (FilterValue.num 55)) :=
  ⟨by decide, by decide, by decide,
    c5_value_priority "area 100-500" "area 55" (100, 500) 55 (by decide) (by decide) (by decide)⟩

/-- Claim C7, counterexample: the claim quantifies over every view state
with a non-empty visible-column set, but the store holds a list and
`setVisibleColumns` accepts duplicates; starting from the non-empty list
with `id` twice, a single `toggleColumn` on `id` filters out both
occurrences and yields the empty visible-column set. -/
theorem c7_counterexample :
    setVisibleColumns [ "id", "id" ] DEFAULT_VISIBLE_COLUMNS = [ "id", "id" ]
    ∧ ([ "id", "id" ] : List String) ≠ []
    ∧ applyToggles [ "id" ] [ "id", "id" ] = [] := by
  refine ⟨rfl, by decide, by decide⟩

/-- Claim C7, amended: starting from any view state whose visible-column
list is non-empty and duplicate-free, any sequence of `toggleColumn`
invocations keeps the list non-empty (and duplicate-free); toggling the
last remaining visible column is a no-op, toggling another visible
column removes it, and toggling a hidden column appends it. -/
theorem c7_toggle_invariant (vc : List String) (hnd : vc.Nodup) (hne : vc ≠ [])
    (seq : List String) (c : String) :
    (applyToggles seq vc).Nodup
    ∧ applyToggles seq vc ≠ []
    ∧ (vc = [ c ] → toggleColumn c vc = vc)
    ∧ (c ∈ vc → 1 < vc.length → toggleColumn c vc = vc.filter (fun x => x != c))
    ∧ (c ∉ vc → toggleColumn c vc = vc ++ [ c ]) := by
  have main := applyToggles_preserves seq vc hnd hne
  refine ⟨main.1, main.2, ?_, ?_, ?_⟩
  · intro h
    subst h
    unfold toggleColumn
    rw [if_pos (List.elem_eq_true_of_mem (List.mem_singleton_self c))]
    rw [if_neg (by simp)]
  · intro hc hlen
    unfold toggleColumn
    rw [if_pos (List.elem_eq_true_of_mem hc), if_pos hlen]
  · intro hc
    unfold toggleColumn
    rw [if_neg (fun h => hc (List.mem_of_elem_eq_true h))]

/-- Claim C7 witness: the amended statement at a concrete duplicate-free
two-column state and a toggle sequence exercising all branches. -/
theorem c7_witness :
    ([ "id", "descripcion" ] : List String).Nodup
    ∧ ([ "id", "descripcion" ] : List String) ≠ []
    ∧ ((applyToggles [ "id", "id", "descripcion" ] [ "id", "descripcion" ]).Nodup
       ∧ applyToggles [ "id", "id", "descripcion" ] [ "id", "descripcion" ] ≠ []
       ∧ (([ "id", "descripcion" ] : List String) = [ "id" ] →
            toggleColumn "id" [ "id", "descripcion" ] = [ "id", "descripcion" ])
       ∧ ("id" ∈ ([ "id", "descripcion" ] : List String) →
            1 < ([ "id", "descripcion" ] : List String).length →
            toggleColumn "id" [ "id", "descripcion" ]
              = ([ "id", "descripcion" ] : List String).filter (fun x => x != "id"))
       ∧ ("id" ∉ ([ "id", "descripcion" ] : List String) →
            toggleColumn "id" [ "id", "descripcion" ] = [ "id", "descripcion" ] ++ [ "id" ])) :=
  ⟨by decide, by decide,
    c7_toggle_invariant [ "id", "descripcion" ] (by decide) (by decide)
      [ "id", "id", "descripcion" ] "id"⟩

/-- Claim C8: the mapped item subtotal equals the source override cost
`resource_cost` when present and otherwise equals unit cost times
quantity; the unit cost follows the fallback chain price-per-unit, else
median estimate, else mean estimate, else 0; the quantity defaults to 1;
and `createConstructionItem` always computes subtotal as unit cost times
quantity. -/
theorem c8_subtotal_policy (r1 r2 r3 : DDCWorkItem) (i1 i2 i3 : Nat) (c : Rat)
    (inp : ConstructionItemInput)
    (h1 : r1.resource_cost = some c) (h2 : r2.resource_cost = Option.none) :
    (mapToConstructionItem r1 i1).subtotal = c
    ∧ (mapToConstructionItem r2 i2).subtotal
        = (mapToConstructionItem r2 i2).costoUnitario * (mapToConstructionItem r2 i2).cantidad
    ∧ ((mapToConstructionItem r3 i3).costoUnitario =
        match r3.resource_price_per_unit, r3.price_est_median, r3.price_est_mean with
        | some p, _, _ => p
        | Option.none, some m, _ => m
        | Option.none, Option.none, some m => m
        | Option.none, Option.none, Option.none => 0)
    ∧ ((mapToConstructionItem r3 i3).cantidad =
        match r3.resource_quantity with
        | some q => q
        | Option.none => 1)
    ∧ (createConstructionItem inp).subtotal = inp.costoUnitario * inp.cantidad := by
  refine ⟨?_, ?_, ?_, ?_, rfl⟩
  · simp [mapToConstructionItem, h1]
  · simp [mapToConstructionItem, h2]
  · cases hp : r3.resource_price_per_unit <;>
      cases hm : r3.price_est_median <;>
      cases hmn : r3.price_est_mean <;>
      simp [mapToConstructionItem, hp, hm, hmn]
  · cases hq : r3.resource_quantity <;> simp [mapToConstructionItem, hq]

/-- Claim C8 witness: the statement at a concrete override row
(override 42, price 5, quantity 3), a concrete row without override and
a concrete item input. -/
theorem c8_witness :
    ddcRowOverride.resource_cost = some 42
    ∧ ddcRowNoCost.resource_cost = Option.none
    ∧ ((mapToConstructionItem ddcRowOverride 0).subtotal = 42
       ∧ (mapToConstructionItem ddcRowNoCost 1).subtotal
           = (mapToConstructionItem ddcRowNoCost 1).costoUnitario
               * (mapToConstructionItem ddcRowNoCost 1).cantidad
       ∧ ((mapToConstructionItem ddcRowOverride 2).costoUnitario =
           match ddcRowOverride.resource_price_per_unit, ddcRowOverride.price_est_median,
             ddcRowOverride.price_est_mean with
           | some p, _, _ => p
           | Option.none, some m, _ => m
           | Option.none, Option.none, some m => m
           | Option.none, Option.none, Option.none => 0)
       ∧ ((mapToConstructionItem ddcRowOverride 2).cantidad =
           match ddcRowOverride.resource_quantity with
           | some q => q
           | Option.none => 1)
       ∧ (createConstructionItem sampleInput).subtotal
           = sampleInput.costoUnitario * sampleInput.cantidad) :=
  ⟨rfl, rfl, c8_subtotal_policy ddcRowOverride ddcRowNoCost ddcRowOverride 0 1 2 42
    sampleInput rfl rfl⟩

/-- Claim C10: the persisted serialization produced by `partialize`
contains exactly the view mode, the visible columns, the sorting state,
the column-visibility map and the column widths; it is insensitive to
the filter state (structured conditions and global search), which
therefore resets on every new session (row selection is local component
state and is not part of this store at all). -/
theorem c10_persistence_boundary (s : TableState) (f : TableFilters) :
    partialize { s with filters := f } = partialize s
    ∧ (partialize s).viewMode = s.viewMode
    ∧ (partialize s).visibleColumns = s.visibleColumns
    ∧ (partialize s).sorting = s.sorting
    ∧ (partialize s).columnVisibility = s.columnVisibility
    ∧ (partialize s).columnSizing = s.columnSizing :=
  ⟨rfl, rfl, rfl, rfl, rfl, rfl⟩

/- ===================== Claim C6: parser totality ===================== -/

theorem processSegments_spec (segs : List String) : ∀ counter : Nat,
    ((processSegments counter segs).1.map ParsedFilter.rawInput
      = segs.filter (fun s => (resolveField s).isSome && (extractValue s).isSome))
    ∧ ((processSegments counter segs).2
      = segs.filter (fun s => !((resolveField s).isSome && (extractValue s).isSome)
          && decide (2 < s.length))) := by
  induction segs with
  | nil => exact fun _ => ⟨rfl, rfl⟩
  | cons seg rest ih =>
    intro counter
    rcases hf : resolveField seg with _ | f <;> rcases hv : extractValue seg with _ | v
    · have h := ih counter
      by_cases hlen : 2 < seg.length <;>
        simp [processSegments, hf, hv, List.filter_cons, hlen, h.1, h.2]
    · have h := ih counter
      by_cases hlen : 2 < seg.length <;>
        simp [processSegments, hf, hv, List.filter_cons, hlen, h.1, h.2]
    · have h := ih counter
      by_cases hlen : 2 < seg.length <;>
        simp [processSegments, hf, hv, List.filter_cons, hlen, h.1, h.2]
    · have h := ih (counter + 1)
      simp [processSegments, hf, hv, List.filter_cons, h.1, h.2]

/-- Claim C6: `parseNaturalLanguageQuery` is a total function producing a
fully formed result on every input: each split segment produces a filter
exactly when it resolves to a field and a non-null value; a segment that
produces no filter lands in `unrecognized` exactly when its length
exceeds 2; unparseable segments never prevent the valid segments of the
same input from producing their filters (the filter list is exactly the
valid segments, in order); and `success` reports whether any filter was
produced. -/
theorem c6_parse_total (q : String) :
    (parseNaturalLanguageQuery q).filters.map ParsedFilter.rawInput
      = (segments q).filter (fun s => (resolveField s).isSome && (extractValue s).isSome)
    ∧ (parseNaturalLanguageQuery q).unrecognized
      = (segments q).filter (fun s => !((resolveField s).isSome && (extractValue s).isSome)
          && decide (2 < s.length))
    ∧ (parseNaturalLanguageQuery q).success
      = decide (0 < (parseNaturalLanguageQuery q).filters.length) := by
  have h := processSegments_spec (segments q) 0
  exact ⟨h.1, h.2, rfl⟩

/- ===================== Claim C2: virtualization ===================== -/

theorem windowSum (h : Nat) : ∀ (cnt first : Nat),
    ((((List.range' first cnt).map (mkVirtualItem h)).map VirtualItem.size)).sum = cnt * h := by
  intro cnt
  induction cnt with
  | zero => intro first; simp
  | succ k ih =>
    intro first
    rw [List.range'_succ, List.map_cons, List.map_cons, List.sum_cons, ih (first + 1)]
    simp only [mkVirtualItem]
    ring

theorem windowLast (h : Nat) : ∀ (k first : Nat),
    (((List.range' first (k + 1)).map (mkVirtualItem h))).getLast?
      = some (mkVirtualItem h (first + k)) := by
  intro k
  induction k with
  | zero => intro first; simp
  | succ k2 ih =>
    intro first
    have h2 := ih (first + 1)
    have e : first + 1 + k2 = first + (k2 + 1) := by omega
    rw [e] at h2
    rw [List.range'_succ, List.map_cons] at h2
    rw [List.range'_succ, List.map_cons, List.range'_succ, List.map_cons,
      List.getLast?_cons_cons]
    rw [← List.map_cons, ← List.range'_succ] at h2
    rw [← List.map_cons (mkVirtualItem h), ← List.range'_succ]
    exact h2

theorem windowHead (h : Nat) (k first : Nat) :
    paddingTop ((List.range' first (k + 1)).map (mkVirtualItem h))
      = ((first * h : Nat) : Int) := by
  rw [List.range'_succ, List.map_cons]
  simp [paddingTop, mkVirtualItem]

/-- Claim C2: for every rendered table state (positive row height and
viewport), the top padding plus the total height of the materialized
virtual rows plus the bottom padding equals `totalCount * rowHeight`
exactly, and every materialized index stays inside
`[0, totalCount - 1]`. -/
theorem c2_padding_identity (totalCount scrollOffset viewportHeight rowHeight overscan : Nat)
    (hrh : 0 < rowHeight) (hvp : 0 < viewportHeight) :
    paddingTop (computeWindow totalCount scrollOffset viewportHeight rowHeight overscan)
      + (((computeWindow totalCount scrollOffset viewportHeight rowHeight overscan).map
            VirtualItem.size).sum : Int)
      + paddingBottom (computeWindow totalCount scrollOffset viewportHeight rowHeight overscan)
          (virtTotalSize totalCount rowHeight)
      = (totalCount : Int) * (rowHeight : Int)
    ∧ ∀ v ∈ computeWindow totalCount scrollOffset viewportHeight rowHeight overscan,
        v.index < totalCount := by
  by_cases htc : totalCount = 0
  · subst htc
    simp [computeWindow, paddingTop, paddingBottom, virtTotalSize]
  · have hfl : min (scrollOffset / rowHeight - overscan) (totalCount - 1)
        ≤ min ((scrollOffset + viewportHeight + rowHeight - 1) / rowHeight - 1 + overscan)
            (totalCount - 1) := by
      have hdiv1 : (scrollOffset + rowHeight) / rowHeight = scrollOffset / rowHeight + 1 :=
        Nat.add_div_right _ hrh
      have hmono : (scrollOffset + rowHeight) / rowHeight
          ≤ (scrollOffset + viewportHeight + rowHeight - 1) / rowHeight :=
        Nat.div_le_div_right (by omega)
      omega
    have hw : computeWindow totalCount scrollOffset viewportHeight rowHeight overscan
        = (List.range' (min (scrollOffset / rowHeight - overscan) (totalCount - 1))
            (min ((scrollOffset + viewportHeight + rowHeight - 1) / rowHeight - 1 + overscan)
                (totalCount - 1) + 1
              - min (scrollOffset / rowHeight - overscan) (totalCount - 1))).map
            (mkVirtualItem rowHeight) := by
      simp [computeWindow, htc]
    rw [hw]
    generalize hF : min (scrollOffset / rowHeight - overscan) (totalCount - 1) = first at hfl ⊢
    generalize hL : min ((scrollOffset + viewportHeight + rowHeight - 1) / rowHeight - 1 + overscan)
        (totalCount - 1) = last at hfl ⊢
    have hlastle : last ≤ totalCount - 1 := by rw [← hL]; exact min_le_right _ _
    have hcnt : last + 1 - first = (last - first) + 1 := by omega
    rw [hcnt]
    constructor
    · rw [windowHead rowHeight (last - first) first,
        windowSum rowHeight ((last - first) + 1) first]
      have hne : 0 < (((List.range' first ((last - first) + 1)).map
          (mkVirtualItem rowHeight))).length := by
        simp
      unfold paddingBottom
      rw [if_pos hne, windowLast rowHeight (last - first) first]
      have hflv : first + (last - first) = last := by omega
      rw [hflv]
      simp only [Option.map_some', Option.getD_some, mkVirtualItem]
      have hA : ((last - first : Nat) : Int) = (last : Int) - (first : Int) := by omega
      unfold virtTotalSize
      push_cast [hA]
      ring
    · intro v hv
      obtain ⟨i, hi, rfl⟩ := List.mem_map.mp hv
      obtain ⟨j, hj, rfl⟩ := List.mem_range'.mp hi
      simp only [mkVirtualItem]
      omega

/-- Claim C2 witness: the padding identity and the index bound at a
concrete rendered state (10 rows of height 48, viewport 300, scroll
offset 100, overscan 2). -/
theorem c2_witness :
    (0 : Nat) < 48 ∧ (0 : Nat) < 300
    ∧ (paddingTop (computeWindow 10 100 300 48 2)
        + (((computeWindow 10 100 300 48 2).map VirtualItem.size).sum : Int)
        + paddingBottom (computeWindow 10 100 300 48 2) (virtTotalSize 10 48)
        = (10 : Int) * (48 : Int)
       ∧ ∀ v ∈ computeWindow 10 100 300 48 2, v.index < 10) :=
  ⟨by decide, by decide, c2_padding_identity 10 100 300 48 2 (by decide) (by decide)⟩

/- ===================== Lemmas: the stable sort model ===================== -/

open List

theorem jsSortInsert_perm {α : Type} (le : α → α → Bool) (x : α) (acc : List α) :
    (jsSortInsert le x acc).Perm (x :: acc) := by
  induction acc with
  | nil => simp [jsSortInsert]
  | cons y ys ih =>
    unfold jsSortInsert
    by_cases h : le y x = true
    · rw [if_pos h]
      exact (ih.cons y).trans (List.Perm.swap x y ys)
    · rw [if_neg h]

theorem foldIns_perm {α : Type} (le : α → α → Bool) :
    ∀ (l acc : List α), (l.foldl (fun acc y => jsSortInsert le y acc) acc).Perm (acc ++ l) := by
  intro l
  induction l with
  | nil => intro acc; simp
  | cons x rest ih =>
    intro acc
    rw [List.foldl_cons]
    refine (ih (jsSortInsert le x acc)).trans ?_
    have h2 : (jsSortInsert le x acc ++ rest).Perm ((x :: acc) ++ rest) :=
      (jsSortInsert_perm le x acc).append_right rest
    refine h2.trans ?_
    exact List.Perm.symm List.perm_middle

theorem jsSortList_perm {α : Type} (le : α → α → Bool) (l : List α) :
    (jsSortList le l).Perm l := by
  simpa [jsSortList] using foldIns_perm le l []

theorem jsSortInsert_self_sublist {α : Type} (le : α → α → Bool) (x : α) (acc : List α) :
    acc <+ jsSortInsert le x acc := by
  induction acc with
  | nil => exact List.nil_sublist _
  | cons y ys ih =>
    unfold jsSortInsert
    by_cases h : le y x = true
    · rw [if_pos h]
      exact ih.cons₂ y
    · rw [if_neg h]
      exact (List.Sublist.refl _).cons x

theorem mem_jsSortInsert {α : Type} {le : α → α → Bool} {x a : α} {acc : List α} :
    a ∈ jsSortInsert le x acc ↔ a = x ∨ a ∈ acc := by
  rw [(jsSortInsert_perm le x acc).mem_iff, List.mem_cons]

theorem jsSortInsert_pairwise {α : Type} (le : α → α → Bool) (x : α) (acc : List α)
    (hs : acc.Pairwise (fun u v => le u v = true))
    (htot : ∀ u ∈ x :: acc, ∀ v ∈ x :: acc, le u v = true ∨ le v u = true)
    (htrans : ∀ u ∈ x :: acc, ∀ v ∈ x :: acc, ∀ w ∈ x :: acc,
      le u v = true → le v w = true → le u w = true) :
    (jsSortInsert le x acc).Pairwise (fun u v => le u v = true) := by
  induction acc with
  | nil => simp [jsSortInsert]
  | cons y ys ih =>
    rw [List.pairwise_cons] at hs
    have hlift : ∀ z, z ∈ x :: ys → z ∈ x :: y :: ys := by
      intro z hz
      rcases List.mem_cons.mp hz with rfl | hz2
      · exact List.mem_cons_self _ _
      · exact List.mem_cons_of_mem _ (List.mem_cons_of_mem _ hz2)
    unfold jsSortInsert
    by_cases h : le y x = true
    · rw [if_pos h]
      rw [List.pairwise_cons]
      constructor
      · intro z hz
        rcases mem_jsSortInsert.mp hz with rfl | hz2
        · exact h
        · exact hs.1 z hz2
      · exact ih hs.2
          (fun u hu v hv => htot u (hlift u hu) v (hlift v hv))
          (fun u hu v hv w hw h1 h2 =>
            htrans u (hlift u hu) v (hlift v hv) w (hlift w hw) h1 h2)
    · rw [if_neg h]
      have hxmem : x ∈ x :: y :: ys := List.mem_cons_self _ _
      have hymem : y ∈ x :: y :: ys := List.mem_cons_of_mem _ (List.mem_cons_self _ _)
      have hxy : le x y = true := by
        rcases htot x hxmem y hymem with h1 | h2
        · exact h1
        · exact absurd h2 h
      rw [List.pairwise_cons]
      constructor
      · intro z hz
        rcases List.mem_cons.mp hz with rfl | hz2
        · exact hxy
        · exact htrans x hxmem y hymem z
            (List.mem_cons_of_mem _ (List.mem_cons_of_mem _ hz2)) hxy (hs.1 z hz2)
      · rw [List.pairwise_cons]
        exact ⟨hs.1, hs.2⟩

theorem jsSortInsert_point {α : Type} (le : α → α → Bool) (a b : α) (acc : List α)
    (hs : acc.Pairwise (fun u v => le u v = true))
    (ha : a ∈ acc) (hab : le a b = true)
    (htrans : ∀ u ∈ b :: acc, ∀ v ∈ b :: acc, ∀ w ∈ b :: acc,
      le u v = true → le v w = true → le u w = true) :
    [ a, b ] <+ jsSortInsert le b acc := by
  induction acc with
  | nil => cases ha
  | cons y ys ih =>
    rw [List.pairwise_cons] at hs
    have hbmem : b ∈ b :: y :: ys := List.mem_cons_self _ _
    have hymem : y ∈ b :: y :: ys := List.mem_cons_of_mem _ (List.mem_cons_self _ _)
    unfold jsSortInsert
    by_cases h : le y b = true
    · rw [if_pos h]
      rcases List.mem_cons.mp ha with rfl | ha2
      · refine List.Sublist.cons₂ a ?_
        rw [List.singleton_sublist]
        exact mem_jsSortInsert.mpr (Or.inl rfl)
      · refine List.Sublist.cons y ?_
        refine ih hs.2 ha2 ?_
        intro u hu v hv w hw h1 h2
        have hl : ∀ z, z ∈ b :: ys → z ∈ b :: y :: ys := by
          intro z hz
          rcases List.mem_cons.mp hz with rfl | hz2
          · exact List.mem_cons_self _ _
          · exact List.mem_cons_of_mem _ (List.mem_cons_of_mem _ hz2)
        exact htrans u (hl u hu) v (hl v hv) w (hl w hw) h1 h2
    · rw [if_neg h]
      exfalso
      rcases List.mem_cons.mp ha with rfl | ha2
      · exact h hab
      · have hamem : a ∈ b :: y :: ys :=
          List.mem_cons_of_mem _ (List.mem_cons_of_mem _ ha2)
        have hya : le y a = true := hs.1 a ha2
        exact h (htrans y hymem a hamem b hbmem hya hab)

theorem foldIns_pair {α : Type} (le : α → α → Bool) (a b : α) (hab : le a b = true) :
    ∀ (l acc : List α),
    acc.Pairwise (fun u v => le u v = true) →
    (∀ u ∈ acc ++ l, ∀ v ∈ acc ++ l, ∀ w ∈ acc ++ l,
      le u v = true → le v w = true → le u w = true) →
    (∀ u ∈ acc ++ l, ∀ v ∈ acc ++ l, le u v = true ∨ le v u = true) →
    (([ a, b ] <+ acc) ∨ (a ∈ acc ∧ b ∈ l) ∨ ([ a, b ] <+ l)) →
    [ a, b ] <+ l.foldl (fun acc y => jsSortInsert le y acc) acc := by
  intro l
  induction l with
  | nil =>
    intro acc _ _ _ hcase
    rcases hcase with h1 | h2 | h3
    · simpa using h1
    · cases h2.2
    · simp at h3
  | cons x rest ih =>
    intro acc hs htrans htot hcase
    rw [List.foldl_cons]
    have hmem : ∀ z, z ∈ jsSortInsert le x acc ++ rest → z ∈ acc ++ x :: rest := by
      intro z hz
      rcases List.mem_append.mp hz with hz1 | hz2
      · rcases mem_jsSortInsert.mp hz1 with rfl | hz3
        · exact List.mem_append.mpr (Or.inr (List.mem_cons_self _ _))
        · exact List.mem_append.mpr (Or.inl hz3)
      · exact List.mem_append.mpr (Or.inr (List.mem_cons_of_mem _ hz2))
    have hmem2 : ∀ z, z ∈ x :: acc → z ∈ acc ++ x :: rest := by
      intro z hz
      rcases List.mem_cons.mp hz with rfl | hz2
      · exact List.mem_append.mpr (Or.inr (List.mem_cons_self _ _))
      · exact List.mem_append.mpr (Or.inl hz2)
    have hs' : (jsSortInsert le x acc).Pairwise (fun u v => le u v = true) :=
      jsSortInsert_pairwise le x acc hs
        (fun u hu v hv => htot u (hmem2 u hu) v (hmem2 v hv))
        (fun u hu v hv w hw h1 h2 =>
          htrans u (hmem2 u hu) v (hmem2 v hv) w (hmem2 w hw) h1 h2)
    refine ih (jsSortInsert le x acc) hs'
      (fun u hu v hv w hw h1 h2 =>
        htrans u (hmem u hu) v (hmem v hv) w (hmem w hw) h1 h2)
      (fun u hu v hv => htot u (hmem u hu) v (hmem v hv)) ?_
    rcases hcase with h1 | ⟨ha, hb⟩ | h3
    · exact Or.inl (h1.trans (jsSortInsert_self_sublist le x acc))
    · rcases List.mem_cons.mp hb with rfl | hb2
      · refine Or.inl (jsSortInsert_point le a b acc hs ha hab ?_)
        intro u hu v hv w hw h1 h2
        exact htrans u (hmem2 u hu) v (hmem2 v hv) w (hmem2 w hw) h1 h2
      · exact Or.inr (Or.inl ⟨mem_jsSortInsert.mpr (Or.inr ha), hb2⟩)
    · cases h3 with
      | cons c h => exact Or.inr (Or.inr h)
      | cons₂ c h =>
        exact Or.inr (Or.inl
          ⟨mem_jsSortInsert.mpr (Or.inl rfl), List.singleton_sublist.mp h⟩)

theorem jsSortList_pair {α : Type} (le : α → α → Bool) (a b : α) (hab : le a b = true)
    (l : List α)
    (htrans : ∀ u ∈ l, ∀ v ∈ l, ∀ w ∈ l, le u v = true → le v w = true → le u w = true)
    (htot : ∀ u ∈ l, ∀ v ∈ l, le u v = true ∨ le v u = true)
    (hsub : [ a, b ] <+ l) :
    [ a, b ] <+ jsSortList le l := by
  unfold jsSortList
  exact foldIns_pair le a b hab l [] List.Pairwise.nil htrans htot (Or.inr (Or.inr hsub))

/- ===================== Lemmas: the query comparator ===================== -/

theorem JSVal.isNum_iff {v : JSVal} : v.isNum = true ↔ ∃ q : Rat, v = JSVal.num q := by
  cases v <;> simp [JSVal.isNum]

theorem sortCmp_num {lc : String → String → Int} {so : SortOrder} {col : String}
    {a b : RawRow} {x y : Rat}
    (hx : getField a col = JSVal.num x) (hy : getField b col = JSVal.num y) :
    sortCmp lc so col a b = (match so with
      | SortOrder.asc => x - y
      | SortOrder.desc => y - x) := by
  cases so <;> simp [sortCmp, hx, hy]

theorem sortCmp_str {lc : String → String → Int} {so : SortOrder} {col : String}
    {a b : RawRow}
    (h : ((getField a col).isNum && (getField b col).isNum) = false) :
    sortCmp lc so col a b = (match so with
      | SortOrder.asc =>
        ((lc (safeString (getField a col)) (safeString (getField b col))) : Rat)
      | SortOrder.desc =>
        ((lc (safeString (getField b col)) (safeString (getField a col))) : Rat)) := by
  cases so <;> cases hu : getField a col <;> cases hv : getField b col <;>
    first
      | (rw [hu, hv] at h; simp [JSVal.isNum] at h; done)
      | simp [sortCmp, hu, hv]

/-- Claim C9: the query-pipeline sort compares numerically when both
values of the sort column are numbers (signed difference, direction
honoured) and through the host `localeCompare` on the stringified values
otherwise; the sort is a permutation of its input; and it is stable:
rows sharing the sort-column value keep their pre-sort relative order,
shown for a numeric sort column and for a non-numeric sort column
(`localeCompare` is assumed to be a total preorder, which the host
guarantees; on a column mixing numbers and non-numbers the comparator is
inconsistent and ECMAScript leaves the order implementation-defined). -/
theorem c9_sort_semantics
    (lc : String → String → Int)
    (hlctrans : ∀ s t u : String, lc s t ≤ 0 → lc t u ≤ 0 → lc s u ≤ 0)
    (hlctotal : ∀ s t : String, lc s t ≤ 0 ∨ lc t s ≤ 0)
    (so : SortOrder) (colP colN colS : String)
    (rows rowsN rowsS : List RawRow)
    (p q : RawRow) (x y : Rat)
    (hpx : getField p colP = JSVal.num x) (hqy : getField q colP = JSVal.num y)
    (u v : RawRow)
    (huv : ((getField u colP).isNum && (getField v colP).isNum) = false)
    (a b : RawRow)
    (hnumcol : ∀ r ∈ rowsN, (getField r colN).isNum = true)
    (habN : getField a colN = getField b colN)
    (hsubN : [ a, b ] <+ rowsN)
    (a2 b2 : RawRow)
    (hstrcol : ∀ r ∈ rowsS, (getField r colS).isNum = false)
    (habS : getField a2 colS = getField b2 colS)
    (hsubS : [ a2, b2 ] <+ rowsS) :
    (sortRows lc so colP rows).Perm rows
    ∧ sortCmp lc so colP p q = (match so with
        | SortOrder.asc => x - y
        | SortOrder.desc => y - x)
    ∧ sortCmp lc so colP u v = (match so with
        | SortOrder.asc =>
          ((lc (safeString (getField u colP)) (safeString (getField v colP))) : Rat)
        | SortOrder.desc =>
          ((lc (safeString (getField v colP)) (safeString (getField u colP))) : Rat))
    ∧ [ a, b ] <+ sortRows lc so colN rowsN
    ∧ [ a2, b2 ] <+ sortRows lc so colS rowsS := by
  refine ⟨jsSortList_perm (leRow lc so colP) rows, sortCmp_num hpx hqy, sortCmp_str huv,
    ?_, ?_⟩
  · have hmema : a ∈ rowsN := hsubN.subset (by simp)
    obtain ⟨xa, hxa⟩ := JSVal.isNum_iff.mp (hnumcol a hmema)
    have hxb : getField b colN = JSVal.num xa := by rw [← habN, hxa]
    show [ a, b ] <+ jsSortList (leRow lc so colN) rowsN
    refine jsSortList_pair (leRow lc so colN) a b ?_ rowsN ?_ ?_ hsubN
    · unfold leRow
      rw [sortCmp_num hxa hxb]
      cases so <;> simp
    · intro r1 h1 r2 h2 r3 h3 hle1 hle2
      obtain ⟨x1, e1⟩ := JSVal.isNum_iff.mp (hnumcol r1 h1)
      obtain ⟨x2, e2⟩ := JSVal.isNum_iff.mp (hnumcol r2 h2)
      obtain ⟨x3, e3⟩ := JSVal.isNum_iff.mp (hnumcol r3 h3)
      unfold leRow at hle1 hle2 ⊢
      rw [sortCmp_num e1 e2] at hle1
      rw [sortCmp_num e2 e3] at hle2
      rw [sortCmp_num e1 e3]
      cases so <;> simp at hle1 hle2 ⊢ <;> linarith
    · intro r1 h1 r2 h2
      obtain ⟨x1, e1⟩ := JSVal.isNum_iff.mp (hnumcol r1 h1)
      obtain ⟨x2, e2⟩ := JSVal.isNum_iff.mp (hnumcol r2 h2)
      cases so
      · simp [leRow, sortCmp_num e1 e2, sortCmp_num e2 e1]
        exact le_total x1 x2
      · simp [leRow, sortCmp_num e1 e2, sortCmp_num e2 e1]
        exact le_total x2 x1
  · have hmema : a2 ∈ rowsS := hsubS.subset (by simp)
    have hS : safeString (getField a2 colS) = safeString (getField b2 colS) := by
      rw [habS]
    have hss : ∀ s : String, lc s s ≤ 0 := by
      intro s
      rcases hlctotal s s with h | h <;> exact h
    have hpairfalse : ∀ r1, r1 ∈ rowsS → ∀ r2,
        ((getField r1 colS).isNum && (getField r2 colS).isNum) = false := by
      intro r1 h1 r2
      rw [hstrcol r1 h1]
      simp
    show [ a2, b2 ] <+ jsSortList (leRow lc so colS) rowsS
    refine jsSortList_pair (leRow lc so colS) a2 b2 ?_ rowsS ?_ ?_ hsubS
    · unfold leRow
      rw [sortCmp_str (hpairfalse a2 hmema b2)]
      cases so
      · simp [hS, Int.cast_nonpos]
        exact hss _
      · simp [hS, Int.cast_nonpos]
        exact hss _
    · intro r1 h1 r2 h2 r3 h3 hle1 hle2
      unfold leRow at hle1 hle2 ⊢
      rw [sortCmp_str (hpairfalse r1 h1 r2)] at hle1
      rw [sortCmp_str (hpairfalse r2 h2 r3)] at hle2
      rw [sortCmp_str (hpairfalse r1 h1 r3)]
      cases so
      · simp [Int.cast_nonpos] at hle1 hle2 ⊢
        exact hlctrans _ _ _ hle1 hle2
      · simp [Int.cast_nonpos] at hle1 hle2 ⊢
        exact hlctrans _ _ _ hle2 hle1
    · intro r1 h1 r2 h2
      cases so
      · simp [leRow, sortCmp_str (hpairfalse r1 h1 r2), sortCmp_str (hpairfalse r2 h2 r1),
          Int.cast_nonpos]
        exact hlctotal _ _
      · simp [leRow, sortCmp_str (hpairfalse r1 h1 r2), sortCmp_str (hpairfalse r2 h2 r1),
          Int.cast_nonpos]
        exact hlctotal _ _

/-- Claim C9 witness: the statement at the constant-zero comparator, the
price column for the comparator equations, two equal-price rows for
numeric-column stability and two equal-code rows for string-column
stability. -/
theorem c9_witness :
    (sortRows lcZero SortOrder.asc "resource_price_per_unit" [ rowA, rowB, rowC ]).Perm
      [ rowA, rowB, rowC ]
    ∧ sortCmp lcZero SortOrder.asc "resource_price_per_unit" rowS1 rowS2 = (1 : Rat) - 2
    ∧ sortCmp lcZero SortOrder.asc "resource_price_per_unit" rowC rowS1
        = ((lcZero (safeString (getField rowC "resource_price_per_unit"))
              (safeString (getField rowS1 "resource_price_per_unit"))) : Rat)
    ∧ [ rowN1, rowN2 ] <+ sortRows lcZero SortOrder.asc "resource_price_per_unit"
        [ rowN1, rowN2 ]
    ∧ [ rowS1, rowS2 ] <+ sortRows lcZero SortOrder.asc "rate_code" [ rowS1, rowS2 ] :=
  c9_sort_semantics lcZero
    (fun _ _ _ h1 _ => h1)
    (fun _ _ => Or.inl (le_refl 0))
    SortOrder.asc "resource_price_per_unit" "resource_price_per_unit" "rate_code"
    [ rowA, rowB, rowC ] [ rowN1, rowN2 ] [ rowS1, rowS2 ]
    rowS1 rowS2 1 2 rfl rfl
    rowC rowS1 (by decide)
    rowN1 rowN2 (by decide) rfl (List.Sublist.refl _)
    rowS1 rowS2 (by decide) rfl (List.Sublist.refl _)
